import Mathlib

/-!
Shallow embedding of `src/include/motive/matrix_op.h` (namespace `motive`).

Scalar values (C++ `float`) are modelled as rationals `ℚ`; no floating-point
arithmetic occurs in this header beyond storing, comparing and casting values.
`MotiveTime` (a signed integer type) is modelled as `Int`.

External collaborators that the header consumes but does not define
(`Motivator1f`, `MotiveTarget1f`, `CompactSpline`, `SplinePlayback`,
`Angle::IsAngleInRange`, `Target1f`, `Current1f`) are modelled from the spec;
each such definition carries a doc comment starting `Modelled from the spec:`.

C++ `assert` failures (debug-build faults) are modelled by the affected
member function returning `none`; a successful call returns `some` of the
updated object. Tagged unions (an 8-bit tag field plus an untyped union,
always written together) are modelled as Lean sum types.
-/

namespace motive

/-- MotiveTime is the signed integral time type of the engine. -/
abbrev MotiveTime := Int

/-- MatrixOpId is a uint8 identifier; we model it as a Nat (the uint8 range
    constraint is enforced where the source asserts it, in SetId). -/
abbrev MatrixOpId := Nat

/-- Largest usable operation id (source line 36). -/
def kMaxMatrixOpId : MatrixOpId := 254

/-- Sentinel invalid operation id (source line 37). -/
def kInvalidMatrixOpId : MatrixOpId := 255

/-- The operation-kind enumeration, exactly as declared in the source
    (lines 39-52), including the trailing count sentinel
    kNumMatrixOperationTypes. -/
inductive MatrixOperationType where
  | kInvalidMatrixOperation
  | kRotateAboutX
  | kRotateAboutY
  | kRotateAboutZ
  | kTranslateX
  | kTranslateY
  | kTranslateZ
  | kScaleX
  | kScaleY
  | kScaleZ
  | kScaleUniformly
  | kNumMatrixOperationTypes
deriving DecidableEq

/-- The numeric value of each enumerator (C enum values 0..11). -/
def MatrixOperationType.toNat : MatrixOperationType → Nat
  | .kInvalidMatrixOperation => 0
  | .kRotateAboutX => 1
  | .kRotateAboutY => 2
  | .kRotateAboutZ => 3
  | .kTranslateX => 4
  | .kTranslateY => 5
  | .kTranslateZ => 6
  | .kScaleX => 7
  | .kScaleY => 8
  | .kScaleZ => 9
  | .kScaleUniformly => 10
  | .kNumMatrixOperationTypes => 11

/-- Returns true if the operation is a rotate (source lines 55-57:
    kRotateAboutX <= op && op <= kRotateAboutZ). -/
def RotateOp (op : MatrixOperationType) : Bool :=
  MatrixOperationType.kRotateAboutX.toNat ≤ op.toNat
    && op.toNat ≤ MatrixOperationType.kRotateAboutZ.toNat

/-- Returns true if the operation is a translate (source lines 60-62). -/
def TranslateOp (op : MatrixOperationType) : Bool :=
  MatrixOperationType.kTranslateX.toNat ≤ op.toNat
    && op.toNat ≤ MatrixOperationType.kTranslateZ.toNat

/-- Returns true if the operation is a scale (source lines 65-67). -/
def ScaleOp (op : MatrixOperationType) : Bool :=
  MatrixOperationType.kScaleX.toNat ≤ op.toNat
    && op.toNat ≤ MatrixOperationType.kScaleUniformly.toNat

/-- Returns the default value of the operation: the value that does nothing
    to the transformation (source lines 72-74). -/
def OperationDefaultValue (op : MatrixOperationType) : ℚ :=
  if ScaleOp op then 1 else 0

/-- Modelled from the spec: angle normalization is external (motive/math/angle.h).
    Only the policy "rotations live in a canonical plus-minus pi range" is used
    by this header; we model the range test over ℚ with a fixed rational bound
    standing in for pi. No claim depends on the exact bound. -/
def piRat : ℚ := 314159265358979323846 / 100000000000000000000

/-- Modelled from the spec: the canonical angle-range membership test used by
    the SetValue1f assertion. -/
def Angle.IsAngleInRange (v : ℚ) : Bool :=
  decide (-piRat ≤ v ∧ v ≤ piRat)

/-- Modelled from the spec: opaque motivator configuration reference
    ("which motivator-engine instance/type drives it"). -/
structure MotivatorInit where
  engineType : Nat
deriving DecidableEq

/-- Modelled from the spec: opaque engine context passed at construction. -/
structure MotiveEngine where
  tag : Nat
deriving DecidableEq

/-- Modelled from the spec: one waypoint of a target description, a
    (value, velocity, time) triple. -/
structure MotiveNode1f where
  value : ℚ
  velocity : ℚ
  time : MotiveTime
deriving DecidableEq

/-- Modelled from the spec: a target is an ordered sequence of
    (value, velocity, time) waypoints. -/
abbrev MotiveTarget1f := List MotiveNode1f

/-- Modelled from the spec: the single-waypoint convenience form
    (value, velocity, duration). -/
def Target1f (value velocity : ℚ) (time : MotiveTime) : MotiveTarget1f :=
  [⟨value, velocity, time⟩]

/-- Modelled from the spec: a target that is reached instantly — one waypoint
    at time 0 with velocity 0. -/
def Current1f (value : ℚ) : MotiveTarget1f :=
  [⟨value, 0, 0⟩]

/-- Modelled from the spec: opaque curve handle with a queryable end
    coordinate EndX(). In the real library the x coordinates of a
    CompactSpline are quantized non-negative values, so we model the end
    coordinate as a Nat. -/
structure CompactSpline where
  endXNat : Nat
deriving DecidableEq

/-- The EndX() query of a spline, as the scalar domain. -/
def CompactSpline.EndX (s : CompactSpline) : ℚ := (s.endXNat : ℚ)

/-- Modelled from the spec: playback configuration with start offset,
    ease-in duration blend_x, playback rate and loop flag. -/
structure SplinePlayback where
  start_x : ℚ
  blend_x : ℚ
  playback_rate : ℚ
  repeating : Bool
deriving DecidableEq

/-- The default-constructed SplinePlayback() used by the MatrixOperation
    constructor: zero offsets, unit rate, no looping. -/
def SplinePlayback.mkDefault : SplinePlayback := ⟨0, 0, 1, false⟩

/-- The C++ static_cast from the scalar domain to MotiveTime
    (truncation toward zero), as applied to playback.blend_x in BlendToOp. -/
def castToMotiveTime (x : ℚ) : MotiveTime :=
  Int.tdiv x.num (Int.ofNat x.den)

/-- Modelled from the spec: the commands of the external motivator interface
    that this header issues. The motivator engine itself is out of scope, so
    a motivator is modelled by the trace of commands issued to it. -/
inductive MotivatorCall where
  | setTarget (t : MotiveTarget1f)
  | setSpline (s : CompactSpline) (p : SplinePlayback)
  | setSplinePlaybackRate (r : ℚ)
deriving DecidableEq

/-- Modelled from the spec: the external one-dimensional motivator resource.
    It records its configuration, the engine it was built with, its current
    sampled value (updated only by the external per-tick engine, never by the
    commands: retargeting is in place and does not reset the current value),
    and the trace of commands issued to it. -/
structure Motivator1f where
  cfg : MotivatorInit
  engine : MotiveEngine
  sampledValue : ℚ
  calls : List MotivatorCall
deriving DecidableEq

/-- Modelled from the spec: constructing Motivator1f(init, engine); the
    initial sampled value is engine-determined, modelled as 0. -/
def Motivator1f.construct (cfg : MotivatorInit) (engine : MotiveEngine) : Motivator1f :=
  ⟨cfg, engine, 0, []⟩

/-- Modelled from the spec: the current sampled value of the motivator. -/
def Motivator1f.Value (m : Motivator1f) : ℚ := m.sampledValue

/-- Modelled from the spec: SetTarget retargets in place (recorded in the
    trace; current value and velocity are kept). -/
def Motivator1f.SetTarget (m : Motivator1f) (t : MotiveTarget1f) : Motivator1f :=
  ⟨m.cfg, m.engine, m.sampledValue, m.calls ++ [.setTarget t]⟩

/-- Modelled from the spec: SetSpline hands the motivator a predefined curve
    plus playback parameters. -/
def Motivator1f.SetSpline (m : Motivator1f) (s : CompactSpline) (p : SplinePlayback) : Motivator1f :=
  ⟨m.cfg, m.engine, m.sampledValue, m.calls ++ [.setSpline s p]⟩

/-- Modelled from the spec: SetSplinePlaybackRate adjusts playback speed. -/
def Motivator1f.SetSplinePlaybackRate (m : Motivator1f) (r : ℚ) : Motivator1f :=
  ⟨m.cfg, m.engine, m.sampledValue, m.calls ++ [.setSplinePlaybackRate r]⟩

/-- The four descriptor shapes (source enum UnionType, lines 89-94) together
    with the anonymous union member each tag selects (lines 140-144). In the
    C++ the tag and the union are separate fields always written consistently
    by the five constructors; we model the pair as one sum type. -/
inductive MatrixOperationUnion where
  | kUnionEmpty
  | kUnionInitialValue (initial_value : ℚ)
  | kUnionTarget (target : MotiveTarget1f)
  | kUnionSpline (spline : CompactSpline)
deriving DecidableEq

/-- Init params for a basic operation on a matrix (source struct
    MatrixOperationInit, lines 88-145). The field init is the
    possibly-null MotivatorInit pointer. -/
structure MatrixOperationInit where
  init : Option MotivatorInit
  id : MatrixOpId
  type : MatrixOperationType
  unionValue : MatrixOperationUnion
deriving DecidableEq

/-- Constructor overload for a permanently constant operation
    (source lines 97-103): null init, kUnionInitialValue. -/
def MatrixOperationInit.ofConstValue (id : MatrixOpId) (type : MatrixOperationType)
    (const_value : ℚ) : MatrixOperationInit :=
  ⟨none, id, type, .kUnionInitialValue const_value⟩

/-- Constructor overload for a motivator-driven operation with no initial
    target (source lines 106-108): kUnionEmpty. -/
def MatrixOperationInit.ofMotivator (id : MatrixOpId) (type : MatrixOperationType)
    (minit : MotivatorInit) : MatrixOperationInit :=
  ⟨some minit, id, type, .kUnionEmpty⟩

/-- Constructor overload for a motivator-driven operation with an initial
    value (source lines 112-118). -/
def MatrixOperationInit.ofInitialValue (id : MatrixOpId) (type : MatrixOperationType)
    (minit : MotivatorInit) (initial_value : ℚ) : MatrixOperationInit :=
  ⟨some minit, id, type, .kUnionInitialValue initial_value⟩

/-- Constructor overload for a motivator-driven operation seeking a
    multi-waypoint target (source lines 120-126). -/
def MatrixOperationInit.ofTarget (id : MatrixOpId) (type : MatrixOperationType)
    (minit : MotivatorInit) (target : MotiveTarget1f) : MatrixOperationInit :=
  ⟨some minit, id, type, .kUnionTarget target⟩

/-- Constructor overload for a motivator-driven operation following a
    predefined spline (source lines 128-134). -/
def MatrixOperationInit.ofSpline (id : MatrixOpId) (type : MatrixOperationType)
    (minit : MotivatorInit) (spline : CompactSpline) : MatrixOperationInit :=
  ⟨some minit, id, type, .kUnionSpline spline⟩

/-- The ordered descriptor sequence (source class MatrixOpArray, lines
    147-220). Capacity reservation is a performance hint with no observable
    effect on the sequence, so only the ops vector is modelled. -/
structure MatrixOpArray where
  ops : List MatrixOperationInit
deriving DecidableEq

/-- Remove all matrix operations from the sequence (source lines 163-166;
    the expected_num_ops argument only reserves capacity). -/
def MatrixOpArray.Clear (_ : MatrixOpArray) : MatrixOpArray := ⟨[]⟩

/-- AddOp overload appending a constant descriptor (source lines 170-172). -/
def MatrixOpArray.AddOpConstValue (a : MatrixOpArray) (id : MatrixOpId)
    (type : MatrixOperationType) (const_value : ℚ) : MatrixOpArray :=
  ⟨a.ops ++ [.ofConstValue id type const_value]⟩

/-- AddOp overload appending a motivator-driven descriptor with no initial
    target (source lines 177-180). -/
def MatrixOpArray.AddOpMotivator (a : MatrixOpArray) (id : MatrixOpId)
    (type : MatrixOperationType) (minit : MotivatorInit) : MatrixOpArray :=
  ⟨a.ops ++ [.ofMotivator id type minit]⟩

/-- AddOp overload appending a motivator-driven descriptor with an initial
    value (source lines 184-187). -/
def MatrixOpArray.AddOpInitialValue (a : MatrixOpArray) (id : MatrixOpId)
    (type : MatrixOperationType) (minit : MotivatorInit) (initial_value : ℚ) : MatrixOpArray :=
  ⟨a.ops ++ [.ofInitialValue id type minit initial_value]⟩

/-- AddOp overload appending a multi-waypoint-target descriptor
    (source lines 191-194). -/
def MatrixOpArray.AddOpTarget (a : MatrixOpArray) (id : MatrixOpId)
    (type : MatrixOperationType) (minit : MotivatorInit) (target : MotiveTarget1f) : MatrixOpArray :=
  ⟨a.ops ++ [.ofTarget id type minit target]⟩

/-- AddOp overload appending a spline descriptor (source lines 198-201). -/
def MatrixOpArray.AddOpSpline (a : MatrixOpArray) (id : MatrixOpId)
    (type : MatrixOperationType) (minit : MotivatorInit) (spline : CompactSpline) : MatrixOpArray :=
  ⟨a.ops ++ [.ofSpline id type minit spline]⟩

/-- Maximum duration of any of the splines (source lines 204-214): fold over
    the ops, taking the max of the running value (starting at 0) with the
    spline end coordinate cast to MotiveTime for spline-shaped descriptors. -/
def MatrixOpArray.EndTime (a : MatrixOpArray) : MotiveTime :=
  a.ops.foldl
    (fun end_time op =>
      match op.unionValue with
      | .kUnionSpline s => max end_time (castToMotiveTime s.EndX)
      | _ => end_time)
    0

/-- The AnimationType enum of MatrixOperation (source lines 368-372). -/
inductive AnimationType where
  | kInvalidAnimationType
  | kMotivatorAnimation
  | kConstValueAnimation
deriving DecidableEq

/-- The union AnimatedValue (source lines 383-386) together with the
    animation_type_ tag (source line 421) that selects its valid member. In
    the C++ the tag and the union memory are separate fields; every code path
    writes them consistently (constructor and SetAnimationType are the only
    writers of the tag), so we model the pair as one sum type. The
    invalidValue arm corresponds to kInvalidAnimationType, whose union
    memory is never meaningfully initialized. -/
inductive AnimatedValue where
  | motivatorValue (m : Motivator1f)
  | constValue (v : ℚ)
  | invalidValue
deriving DecidableEq

/-- Runtime structure holding one operation and its input value
    (source class MatrixOperation, lines 225-426). -/
structure MatrixOperation where
  matrix_operation_id : MatrixOpId
  matrix_operation_type : MatrixOperationType
  value : AnimatedValue
deriving DecidableEq

/-- The animation_type_ tag, derived from the active union arm. -/
def MatrixOperation.animation_type (op : MatrixOperation) : AnimationType :=
  match op.value with
  | .motivatorValue _ => .kMotivatorAnimation
  | .constValue _ => .kConstValueAnimation
  | .invalidValue => .kInvalidAnimationType

/-- Helper producing the operation with only the union value replaced
    (id and type fields untouched). -/
def MatrixOperation.withValue (op : MatrixOperation) (v : AnimatedValue) : MatrixOperation :=
  ⟨op.matrix_operation_id, op.matrix_operation_type, v⟩

/-- Return the id identifying the operation between animations
    (source line 257). -/
def MatrixOperation.Id (op : MatrixOperation) : MatrixOpId :=
  op.matrix_operation_id

/-- Return the type of operation being animated (source lines 260-262).
    Named with a trailing underscore because Type is reserved in Lean. -/
def MatrixOperation.Type_ (op : MatrixOperation) : MatrixOperationType :=
  op.matrix_operation_type

/-- Return the value being animated (source lines 265-268): the motivator
    sample if motivator-driven, else the stored constant. The invalid arm
    reads uninitialized union memory in C++; it is unobservable for
    descriptor-constructed operations and modelled as 0. -/
def MatrixOperation.Value (op : MatrixOperation) : ℚ :=
  match op.value with
  | .motivatorValue m => m.Value
  | .constValue v => v
  | .invalidValue => 0

/-- Return true if we can blend to the given op (source lines 271-273). -/
def MatrixOperation.Blendable (op : MatrixOperation) (init : MatrixOperationInit) : Bool :=
  op.matrix_operation_id == init.id

/-- The private Motivator() accessor (source lines 401-404): asserts the
    operation is motivator-driven, then reinterprets the union memory. A
    failed assertion is modelled as none. -/
def MatrixOperation.Motivator (op : MatrixOperation) : Option Motivator1f :=
  match op.value with
  | .motivatorValue m => some m
  | _ => none

/-- SetTarget1f (source line 284): forwards to the motivator accessor, whose
    assertion faults on non-motivator-driven operations, then issues
    SetTarget. -/
def MatrixOperation.SetTarget1f (op : MatrixOperation) (t : MotiveTarget1f) : Option MatrixOperation :=
  match op.value with
  | .motivatorValue m => some (op.withValue (.motivatorValue (m.SetTarget t)))
  | _ => none

/-- SetValue1f (source lines 285-289): asserts the operation is
    constant-driven and, for rotate kinds, that the value is in the canonical
    angle range; then overwrites the stored constant. -/
def MatrixOperation.SetValue1f (op : MatrixOperation) (v : ℚ) : Option MatrixOperation :=
  if op.animation_type = .kConstValueAnimation
      ∧ (RotateOp op.Type_ = false ∨ Angle.IsAngleInRange v = true) then
    some (op.withValue (.constValue v))
  else
    none

/-- BlendToOp (source lines 291-335): dispatch on animation type, then on the
    descriptor shape. Motivator-driven: empty leaves the motivator untouched,
    initial-value issues a single-waypoint SetTarget easing over
    playback.blend_x (cast to MotiveTime), target forwards the waypoints,
    spline forwards curve and playback. Constant-driven: asserts the shape is
    initial-value and records the constant with no blending. The invalid
    animation type hits assert(false). -/
def MatrixOperation.BlendToOp (op : MatrixOperation) (init : MatrixOperationInit)
    (playback : SplinePlayback) : Option MatrixOperation :=
  match op.value with
  | .motivatorValue m =>
    match init.unionValue with
    | .kUnionEmpty => some op
    | .kUnionInitialValue v =>
      some (op.withValue (.motivatorValue
        (m.SetTarget (Target1f v 0 (castToMotiveTime playback.blend_x)))))
    | .kUnionTarget t =>
      some (op.withValue (.motivatorValue (m.SetTarget t)))
    | .kUnionSpline s =>
      some (op.withValue (.motivatorValue (m.SetSpline s playback)))
  | .constValue _ =>
    match init.unionValue with
    | .kUnionInitialValue v => some (op.withValue (.constValue v))
    | _ => none
  | .invalidValue => none

/-- BlendToDefault (source lines 337-349): constant-driven operations are
    untouched; motivator-driven ones are retargeted to the default value of
    the kind, instantly if blend_time is 0, else easing over blend_time. The
    invalid animation type hits the kMotivatorAnimation assertion. -/
def MatrixOperation.BlendToDefault (op : MatrixOperation) (blend_time : MotiveTime) : Option MatrixOperation :=
  match op.value with
  | .constValue _ => some op
  | .motivatorValue m =>
    let default_value := OperationDefaultValue op.Type_
    let target :=
      if blend_time = 0 then Current1f default_value
      else Target1f default_value 0 blend_time
    some (op.withValue (.motivatorValue (m.SetTarget target)))
  | .invalidValue => none

/-- SetPlaybackRate (source lines 351-355): no-op for constant-driven
    operations, forwards to the motivator otherwise; the invalid animation
    type hits the kMotivatorAnimation assertion. -/
def MatrixOperation.SetPlaybackRate (op : MatrixOperation) (playback_rate : ℚ) : Option MatrixOperation :=
  match op.value with
  | .constValue _ => some op
  | .motivatorValue m =>
    some (op.withValue (.motivatorValue (m.SetSplinePlaybackRate playback_rate)))
  | .invalidValue => none

/-- TimeRemaining would require the external TargetTime query; it is not
    needed by any claim. Construction from a descriptor (source lines
    232-247): SetId asserts the id is at most kMaxMatrixOpId; the animation
    type is constant-driven exactly when the descriptor carries no motivator
    configuration; a motivator is constructed in place when motivator-driven
    (for constant-driven operations the union stays uninitialized until
    BlendToOp writes it — modelled by a dummy 0 that BlendToOp either
    overwrites or faults on); finally BlendToOp materializes the initial
    value with a default playback spec. -/
def MatrixOperation.construct (init : MatrixOperationInit) (engine : MotiveEngine) : Option MatrixOperation :=
  if init.id ≤ kMaxMatrixOpId then
    let v : AnimatedValue :=
      match init.init with
      | none => .constValue 0
      | some cfg => .motivatorValue (Motivator1f.construct cfg engine)
    MatrixOperation.BlendToOp ⟨init.id, init.type, v⟩ init SplinePlayback.mkDefault
  else
    none

/-- The mutating member functions a caller can issue after construction,
    used to quantify over call sequences. -/
inductive OpCall where
  | setValue1f (v : ℚ)
  | setTarget1f (t : MotiveTarget1f)
  | blendToOp (d : MatrixOperationInit) (p : SplinePlayback)
  | blendToDefault (blend_time : MotiveTime)
  | setPlaybackRate (r : ℚ)
deriving DecidableEq

/-- Apply one call to an operation; none means the call faulted. -/
def applyCall (op : MatrixOperation) (c : OpCall) : Option MatrixOperation :=
  match c with
  | .setValue1f v => op.SetValue1f v
  | .setTarget1f t => op.SetTarget1f t
  | .blendToOp d p => op.BlendToOp d p
  | .blendToDefault bt => op.BlendToDefault bt
  | .setPlaybackRate r => op.SetPlaybackRate r

/-- Run a sequence of calls left to right; none as soon as one faults. -/
def runCalls (op : MatrixOperation) : List OpCall → Option MatrixOperation
  | [] => some op
  | c :: cs =>
    match applyCall op c with
    | some op1 => runCalls op1 cs
    | none => none

/-- The constant value supplied by one call, if any: SetValue1f always
    supplies its argument; BlendToOp supplies the initial value of an
    initial-value descriptor. -/
def suppliedValue (c : OpCall) : Option ℚ :=
  match c with
  | .setValue1f v => some v
  | .blendToOp d _ =>
    match d.unionValue with
    | .kUnionInitialValue v => some v
    | _ => none
  | _ => none

/-- The last value supplied by a call sequence, starting from v0. -/
def lastSupplied (v0 : ℚ) (cs : List OpCall) : ℚ :=
  cs.foldl (fun acc c => (suppliedValue c).getD acc) v0

/-- The end coordinates (cast to MotiveTime) of the spline-shaped
    descriptors of an array, in order. -/
def splineEndTimes (a : MatrixOpArray) : List MotiveTime :=
  a.ops.filterMap
    (fun op =>
      match op.unionValue with
      | .kUnionSpline s => some (castToMotiveTime s.EndX)
      | _ => none)

/-- Helper: the initial accumulator is a lower bound of a left max-fold. -/
theorem foldl_max_le_self (l : List MotiveTime) (b : MotiveTime) :
    b ≤ l.foldl max b := by
  induction l generalizing b with
  | nil => exact le_refl b
  | cons x xs ih => exact le_trans (le_max_left b x) (ih (max b x))

/-- Helper: every member of the list is bounded by the left max-fold. -/
theorem mem_le_foldl_max (l : List MotiveTime) (b : MotiveTime) (e : MotiveTime)
    (he : e ∈ l) : e ≤ l.foldl max b := by
  induction l generalizing b with
  | nil => cases he
  | cons x xs ih =>
    rcases List.mem_cons.mp he with h | h
    · subst h
      exact le_trans (le_max_right b e) (foldl_max_le_self xs (max b e))
    · exact ih (max b x) h

/-- Helper: a left max-fold yields the initial accumulator or a member. -/
theorem foldl_max_eq_init_or_mem (l : List MotiveTime) (b : MotiveTime) :
    l.foldl max b = b ∨ l.foldl max b ∈ l := by
  induction l generalizing b with
  | nil => exact Or.inl rfl
  | cons x xs ih =>
    rcases ih (max b x) with h | h
    · rcases max_choice b x with hm | hm
      · exact Or.inl (by rw [List.foldl_cons, h, hm])
      · refine Or.inr ?_
        rw [List.foldl_cons, h, hm]
        exact List.mem_cons_self x xs
    · exact Or.inr (List.mem_cons_of_mem x h)

/-- Helper: the EndTime fold equals a max-fold over the spline end times. -/
theorem endtime_fold_eq (ops : List MatrixOperationInit) (b : MotiveTime) :
    ops.foldl
      (fun end_time op =>
        match op.unionValue with
        | .kUnionSpline s => max end_time (castToMotiveTime s.EndX)
        | _ => end_time)
      b
    = (ops.filterMap
        (fun op =>
          match op.unionValue with
          | .kUnionSpline s => some (castToMotiveTime s.EndX)
          | _ => none)).foldl max b := by
  induction ops generalizing b with
  | nil => rfl
  | cons o os ih =>
    cases hu : o.unionValue <;>
      simp [List.foldl_cons, List.filterMap_cons, hu, ih]

/-- Helper: casting a natural-number rational to MotiveTime is the
    natural-number embedding. -/
theorem castToMotiveTime_natCast (n : Nat) :
    castToMotiveTime (n : ℚ) = (n : Int) := by
  simp [castToMotiveTime]

/-- Helper: spline end times are non-negative (spline x coordinates are
    non-negative). -/
theorem splineEndTimes_nonneg (a : MatrixOpArray) (e : MotiveTime)
    (he : e ∈ splineEndTimes a) : 0 ≤ e := by
  rcases List.mem_filterMap.mp he with ⟨op, -, hop⟩
  cases hu : op.unionValue <;> simp [hu] at hop
  rw [← hop, CompactSpline.EndX, castToMotiveTime_natCast]
  exact Int.natCast_nonneg _

/-- C5: EndTime returns the maximum over the spline-shaped descriptors of the
    spline end coordinate (descriptors of every other shape are ignored), and
    0 when the sequence has no spline-shaped descriptor: it equals 0 on an
    array without splines, and on an array with splines it is one of the
    spline end times and an upper bound of all of them. -/
theorem endtime_is_max_spline_end (a : MatrixOpArray) :
    (splineEndTimes a = [] → a.EndTime = 0)
    ∧ (splineEndTimes a ≠ [] →
        a.EndTime ∈ splineEndTimes a
        ∧ ∀ e ∈ splineEndTimes a, e ≤ a.EndTime) := by
  have hfold : a.EndTime = (splineEndTimes a).foldl max 0 :=
    endtime_fold_eq a.ops 0
  constructor
  · intro h
    rw [hfold, h]
    rfl
  · intro hne
    have hub : ∀ e ∈ splineEndTimes a, e ≤ a.EndTime := by
      intro e he
      rw [hfold]
      exact mem_le_foldl_max (splineEndTimes a) 0 e he
    refine ⟨?_, hub⟩
    rcases foldl_max_eq_init_or_mem (splineEndTimes a) 0 with h0 | hmem
    · rcases List.exists_mem_of_ne_nil _ hne with ⟨e0, he0⟩
      have h1 : e0 ≤ a.EndTime := hub e0 he0
      have h2 : 0 ≤ e0 := splineEndTimes_nonneg a e0 he0
      have h3 : a.EndTime = 0 := by rw [hfold, h0]
      have h4 : e0 = a.EndTime := le_antisymm h1 (by rw [h3]; exact h2)
      exact h4 ▸ he0
    · rw [hfold]
      exact hmem

/-- Witness for C5, at the sequence of the spec example: spline end times
    5, 12, 3 with a constant descriptor interleaved. -/
theorem endtime_is_max_spline_end_witness :
    (MatrixOpArray.mk [MatrixOperationInit.ofSpline 0 .kTranslateY ⟨0⟩ ⟨5⟩,
        MatrixOperationInit.ofConstValue 1 .kRotateAboutX 2,
        MatrixOperationInit.ofSpline 2 .kTranslateZ ⟨0⟩ ⟨12⟩,
        MatrixOperationInit.ofSpline 3 .kScaleX ⟨0⟩ ⟨3⟩]).EndTime
      ∈ splineEndTimes (MatrixOpArray.mk
        [MatrixOperationInit.ofSpline 0 .kTranslateY ⟨0⟩ ⟨5⟩,
        MatrixOperationInit.ofConstValue 1 .kRotateAboutX 2,
        MatrixOperationInit.ofSpline 2 .kTranslateZ ⟨0⟩ ⟨12⟩,
        MatrixOperationInit.ofSpline 3 .kScaleX ⟨0⟩ ⟨3⟩])
    ∧ ∀ e ∈ splineEndTimes (MatrixOpArray.mk
        [MatrixOperationInit.ofSpline 0 .kTranslateY ⟨0⟩ ⟨5⟩,
        MatrixOperationInit.ofConstValue 1 .kRotateAboutX 2,
        MatrixOperationInit.ofSpline 2 .kTranslateZ ⟨0⟩ ⟨12⟩,
        MatrixOperationInit.ofSpline 3 .kScaleX ⟨0⟩ ⟨3⟩]),
        e ≤ (MatrixOpArray.mk [MatrixOperationInit.ofSpline 0 .kTranslateY ⟨0⟩ ⟨5⟩,
          MatrixOperationInit.ofConstValue 1 .kRotateAboutX 2,
          MatrixOperationInit.ofSpline 2 .kTranslateZ ⟨0⟩ ⟨12⟩,
          MatrixOperationInit.ofSpline 3 .kScaleX ⟨0⟩ ⟨3⟩]).EndTime :=
  (endtime_is_max_spline_end (MatrixOpArray.mk
      [MatrixOperationInit.ofSpline 0 .kTranslateY ⟨0⟩ ⟨5⟩,
      MatrixOperationInit.ofConstValue 1 .kRotateAboutX 2,
      MatrixOperationInit.ofSpline 2 .kTranslateZ ⟨0⟩ ⟨12⟩,
      MatrixOperationInit.ofSpline 3 .kScaleX ⟨0⟩ ⟨3⟩])).2 (by decide)

/-- Helper: a successful SetValue1f writes the constant and presupposes a
    constant-driven operation. -/
theorem setValue1f_some (op : MatrixOperation) (v : ℚ) (op' : MatrixOperation)
    (h : op.SetValue1f v = some op') :
    op' = op.withValue (.constValue v)
    ∧ op.animation_type = .kConstValueAnimation := by
  rw [MatrixOperation.SetValue1f] at h
  split at h
  · next hc => exact ⟨(Option.some.inj h).symm, hc.1⟩
  · exact absurd h (by simp)

/-- Helper: a successful SetTarget1f happens on a motivator-driven operation
    and only issues SetTarget on the motivator. -/
theorem setTarget1f_some (op : MatrixOperation) (t : MotiveTarget1f)
    (op' : MatrixOperation) (h : op.SetTarget1f t = some op') :
    ∃ m, op.value = .motivatorValue m
      ∧ op' = op.withValue (.motivatorValue (m.SetTarget t)) := by
  unfold MatrixOperation.SetTarget1f at h
  cases hov : op.value with
  | motivatorValue m =>
    simp [hov] at h
    exact ⟨m, rfl, h.symm⟩
  | constValue c => simp [hov] at h
  | invalidValue => simp [hov] at h

/-- Helper: a successful BlendToOp leaves the id and type fields and the
    animation kind unchanged. -/
theorem blendToOp_preserves (op : MatrixOperation) (d : MatrixOperationInit)
    (p : SplinePlayback) (op' : MatrixOperation)
    (h : op.BlendToOp d p = some op') :
    op'.matrix_operation_id = op.matrix_operation_id
    ∧ op'.matrix_operation_type = op.matrix_operation_type
    ∧ op'.animation_type = op.animation_type := by
  unfold MatrixOperation.BlendToOp at h
  cases hov : op.value with
  | motivatorValue m =>
    cases hu : d.unionValue <;> simp [hov, hu] at h <;> rw [← h] <;>
      exact ⟨rfl, rfl, by simp [MatrixOperation.withValue,
        MatrixOperation.animation_type, hov]⟩
  | constValue c =>
    cases hu : d.unionValue <;> simp [hov, hu] at h
    rw [← h]
    exact ⟨rfl, rfl, by simp [MatrixOperation.withValue,
      MatrixOperation.animation_type, hov]⟩
  | invalidValue => simp [hov] at h

/-- Helper: a successful BlendToDefault leaves the id and type fields and the
    animation kind unchanged. -/
theorem blendToDefault_preserves (op : MatrixOperation) (bt : MotiveTime)
    (op' : MatrixOperation) (h : op.BlendToDefault bt = some op') :
    op'.matrix_operation_id = op.matrix_operation_id
    ∧ op'.matrix_operation_type = op.matrix_operation_type
    ∧ op'.animation_type = op.animation_type := by
  unfold MatrixOperation.BlendToDefault at h
  cases hov : op.value with
  | motivatorValue m =>
    simp [hov] at h
    rw [← h]
    exact ⟨rfl, rfl, by simp [MatrixOperation.withValue,
      MatrixOperation.animation_type, hov]⟩
  | constValue c =>
    simp [hov] at h
    rw [← h]
    exact ⟨rfl, rfl, rfl⟩
  | invalidValue => simp [hov] at h

/-- Helper: a successful SetPlaybackRate leaves the id and type fields and
    the animation kind unchanged. -/
theorem setPlaybackRate_preserves (op : MatrixOperation) (r : ℚ)
    (op' : MatrixOperation) (h : op.SetPlaybackRate r = some op') :
    op'.matrix_operation_id = op.matrix_operation_id
    ∧ op'.matrix_operation_type = op.matrix_operation_type
    ∧ op'.animation_type = op.animation_type := by
  unfold MatrixOperation.SetPlaybackRate at h
  cases hov : op.value with
  | motivatorValue m =>
    simp [hov] at h
    rw [← h]
    exact ⟨rfl, rfl, by simp [MatrixOperation.withValue,
      MatrixOperation.animation_type, hov]⟩
  | constValue c =>
    simp [hov] at h
    rw [← h]
    exact ⟨rfl, rfl, rfl⟩
  | invalidValue => simp [hov] at h

/-- Helper: every successful call leaves the id and type fields and the
    animation kind unchanged. -/
theorem applyCall_preserves (op : MatrixOperation) (c : OpCall)
    (op' : MatrixOperation) (h : applyCall op c = some op') :
    op'.matrix_operation_id = op.matrix_operation_id
    ∧ op'.matrix_operation_type = op.matrix_operation_type
    ∧ op'.animation_type = op.animation_type := by
  cases c with
  | setValue1f v =>
    obtain ⟨heq, ha⟩ := setValue1f_some op v op' h
    subst heq
    exact ⟨rfl, rfl, by
      simp [MatrixOperation.withValue, MatrixOperation.animation_type] at ha ⊢
      cases hov : op.value <;> simp [hov] at ha ⊢⟩
  | setTarget1f t =>
    obtain ⟨m, hov, heq⟩ := setTarget1f_some op t op' h
    subst heq
    exact ⟨rfl, rfl, by simp [MatrixOperation.withValue,
      MatrixOperation.animation_type, hov]⟩
  | blendToOp d p => exact blendToOp_preserves op d p op' h
  | blendToDefault bt => exact blendToDefault_preserves op bt op' h
  | setPlaybackRate r => exact setPlaybackRate_preserves op r op' h

/-- Helper: a successful call sequence leaves the id and type fields and the
    animation kind unchanged. -/
theorem runCalls_preserves (op : MatrixOperation) (cs : List OpCall)
    (op' : MatrixOperation) (h : runCalls op cs = some op') :
    op'.matrix_operation_id = op.matrix_operation_id
    ∧ op'.matrix_operation_type = op.matrix_operation_type
    ∧ op'.animation_type = op.animation_type := by
  induction cs generalizing op with
  | nil =>
    simp [runCalls] at h
    subst h
    exact ⟨rfl, rfl, rfl⟩
  | cons c cs ih =>
    rw [runCalls] at h
    cases ha : applyCall op c with
    | none => rw [ha] at h; cases h
    | some op1 =>
      rw [ha] at h
      obtain ⟨h1, h2, h3⟩ := applyCall_preserves op c op1 ha
      obtain ⟨g1, g2, g3⟩ := ih op1 h
      exact ⟨g1.trans h1, g2.trans h2, g3.trans h3⟩

/-- Helper: a successful construction sets the id and type from the
    descriptor and derives the animation kind from whether the descriptor
    carries a motivator configuration. -/
theorem construct_some (d : MatrixOperationInit) (engine : MotiveEngine)
    (op : MatrixOperation) (hc : MatrixOperation.construct d engine = some op) :
    op.matrix_operation_id = d.id
    ∧ op.matrix_operation_type = d.type
    ∧ op.animation_type
        = (match d.init with
           | none => .kConstValueAnimation
           | some _ => .kMotivatorAnimation) := by
  unfold MatrixOperation.construct at hc
  split at hc
  · cases hdi : d.init with
    | none =>
      rw [hdi] at hc
      exact blendToOp_preserves _ d SplinePlayback.mkDefault op hc
    | some cfg =>
      rw [hdi] at hc
      exact blendToOp_preserves _ d SplinePlayback.mkDefault op hc
  · cases hc

/-- Helper: on a constant-driven operation, a successful call leaves the
    stored constant at the value the call supplied, or unchanged if the call
    supplies none. -/
theorem applyCall_const_tracks (op : MatrixOperation) (c : OpCall) (v : ℚ)
    (op' : MatrixOperation) (hv : op.value = .constValue v)
    (h : applyCall op c = some op') :
    op'.value = .constValue ((suppliedValue c).getD v) := by
  cases c with
  | setValue1f w =>
    obtain ⟨heq, -⟩ := setValue1f_some op w op' h
    subst heq
    simp [MatrixOperation.withValue, suppliedValue]
  | setTarget1f t =>
    rw [applyCall] at h
    unfold MatrixOperation.SetTarget1f at h
    simp [hv] at h
  | blendToOp d p =>
    rw [applyCall] at h
    unfold MatrixOperation.BlendToOp at h
    cases hu : d.unionValue <;> simp [hv, hu] at h
    rw [← h]
    simp [MatrixOperation.withValue, suppliedValue, hu]
  | blendToDefault bt =>
    rw [applyCall] at h
    unfold MatrixOperation.BlendToDefault at h
    simp [hv] at h
    rw [← h]
    simp [suppliedValue, hv]
  | setPlaybackRate r =>
    rw [applyCall] at h
    unfold MatrixOperation.SetPlaybackRate at h
    simp [hv] at h
    rw [← h]
    simp [suppliedValue, hv]

/-- Helper: on a constant-driven operation, a successful call sequence
    leaves the stored constant at the last supplied value. -/
theorem runCalls_const_tracks (op : MatrixOperation) (cs : List OpCall)
    (op' : MatrixOperation) (v : ℚ) (hv : op.value = .constValue v)
    (h : runCalls op cs = some op') :
    op'.value = .constValue (lastSupplied v cs) := by
  induction cs generalizing op v with
  | nil =>
    simp [runCalls] at h
    subst h
    simpa [lastSupplied] using hv
  | cons c cs ih =>
    rw [runCalls] at h
    cases ha : applyCall op c with
    | none => rw [ha] at h; cases h
    | some op1 =>
      rw [ha] at h
      have h1 := applyCall_const_tracks op c v op1 hv ha
      have h2 := ih op1 ((suppliedValue c).getD v) h1 h
      simpa [lastSupplied, List.foldl_cons] using h2

/-- C1: for every constant-driven MatrixOperation and any successful
    sequence of calls, Value returns exactly the last value supplied via the
    descriptor of the constructor, SetValue1f, or the constant branch of
    BlendToOp (which overwrites the stored constant instantaneously, with no
    interpolation). -/
theorem const_value_tracks_last_supplied (d : MatrixOperationInit)
    (engine : MotiveEngine) (v0 : ℚ) (op op' : MatrixOperation)
    (cs : List OpCall) (hinit : d.init = none)
    (hu : d.unionValue = .kUnionInitialValue v0)
    (hc : MatrixOperation.construct d engine = some op)
    (hr : runCalls op cs = some op') :
    op'.Value = lastSupplied v0 cs := by
  unfold MatrixOperation.construct at hc
  split at hc
  · rw [hinit] at hc
    unfold MatrixOperation.BlendToOp at hc
    simp [hu, MatrixOperation.withValue] at hc
    have hov : op.value = .constValue v0 := by rw [← hc]
    have h := runCalls_const_tracks op cs op' v0 hov hr
    simp [MatrixOperation.Value, h]
  · cases hc

/-- Witness for C1: a constant translate operation constructed at 5, then
    set to 7, blended to default (no-op), and blended to a constant
    descriptor carrying 9, reads 9, the last supplied value. -/
theorem const_value_tracks_last_supplied_witness :
    (MatrixOperation.mk 3 .kTranslateX (.constValue 9)).Value
      = lastSupplied 5 [OpCall.setValue1f 7, OpCall.blendToDefault 10,
          OpCall.blendToOp (MatrixOperationInit.ofConstValue 3 .kTranslateX 9)
            SplinePlayback.mkDefault] :=
  const_value_tracks_last_supplied
    (MatrixOperationInit.ofConstValue 3 .kTranslateX 5) ⟨0⟩ 5
    (MatrixOperation.mk 3 .kTranslateX (.constValue 5))
    (MatrixOperation.mk 3 .kTranslateX (.constValue 9))
    [OpCall.setValue1f 7, OpCall.blendToDefault 10,
      OpCall.blendToOp (MatrixOperationInit.ofConstValue 3 .kTranslateX 9)
        SplinePlayback.mkDefault]
    rfl rfl (by decide) (by decide)

/-- C9: for every MatrixOperation constructed from a descriptor, the id and
    the operation type come from the descriptor, and no successful sequence
    of subsequent calls changes the Id, the Type or the animation-kind
    tag. -/
theorem identity_and_kind_fixed (d : MatrixOperationInit)
    (engine : MotiveEngine) (op op' : MatrixOperation) (cs : List OpCall)
    (hc : MatrixOperation.construct d engine = some op)
    (hr : runCalls op cs = some op') :
    op.Id = d.id ∧ op.Type_ = d.type
    ∧ op'.Id = op.Id ∧ op'.Type_ = op.Type_
    ∧ op'.animation_type = op.animation_type := by
  obtain ⟨h1, h2, -⟩ := construct_some d engine op hc
  obtain ⟨g1, g2, g3⟩ := runCalls_preserves op cs op' hr
  exact ⟨h1, h2, g1, g2, g3⟩

/-- Witness for C9: a constant translate operation keeps its id, type and
    animation kind across a SetValue1f call. -/
theorem identity_and_kind_fixed_witness :
    (MatrixOperation.mk 3 .kTranslateX (.constValue 5)).Id
      = (MatrixOperationInit.ofConstValue 3 .kTranslateX 5).id
    ∧ (MatrixOperation.mk 3 .kTranslateX (.constValue 5)).Type_
      = (MatrixOperationInit.ofConstValue 3 .kTranslateX 5).type
    ∧ (MatrixOperation.mk 3 .kTranslateX (.constValue 7)).Id
      = (MatrixOperation.mk 3 .kTranslateX (.constValue 5)).Id
    ∧ (MatrixOperation.mk 3 .kTranslateX (.constValue 7)).Type_
      = (MatrixOperation.mk 3 .kTranslateX (.constValue 5)).Type_
    ∧ (MatrixOperation.mk 3 .kTranslateX (.constValue 7)).animation_type
      = (MatrixOperation.mk 3 .kTranslateX (.constValue 5)).animation_type :=
  identity_and_kind_fixed (MatrixOperationInit.ofConstValue 3 .kTranslateX 5)
    ⟨0⟩ (MatrixOperation.mk 3 .kTranslateX (.constValue 5))
    (MatrixOperation.mk 3 .kTranslateX (.constValue 7))
    [OpCall.setValue1f 7] (by decide) (by decide)

/-- C3: for every MatrixOperation and every descriptor d, Blendable d returns
    true if and only if the id of d equals the Id of the operation, regardless
    of the operation kinds or the descriptor shape. -/
theorem blendable_iff_same_id (op : MatrixOperation) (d : MatrixOperationInit) :
    op.Blendable d = true ↔ d.id = op.Id := by
  simp only [MatrixOperation.Blendable, MatrixOperation.Id, beq_iff_eq]
  exact eq_comm

/-- C4 counterexample: at the count sentinel kNumMatrixOperationTypes — a
    value of the operation-kind enumeration — none of RotateOp, TranslateOp,
    ScaleOp holds and the value is not the invalid kind, so the claimed
    exactly-one classification fails there. -/
theorem classification_fails_at_count_sentinel :
    ¬ (cond (RotateOp .kNumMatrixOperationTypes) 1 0
        + cond (TranslateOp .kNumMatrixOperationTypes) 1 0
        + cond (ScaleOp .kNumMatrixOperationTypes) 1 0
        + (if MatrixOperationType.kNumMatrixOperationTypes
             = .kInvalidMatrixOperation then 1 else 0) = (1 : Nat)) := by
  decide

/-- C4 amended: for every value k of the operation-kind enumeration other
    than the count sentinel kNumMatrixOperationTypes, exactly one of
    RotateOp k, TranslateOp k, ScaleOp k, or k being the invalid kind holds. -/
theorem classification_exactly_one (k : MatrixOperationType)
    (h : k ≠ .kNumMatrixOperationTypes) :
    cond (RotateOp k) 1 0 + cond (TranslateOp k) 1 0 + cond (ScaleOp k) 1 0
      + (if k = .kInvalidMatrixOperation then 1 else 0) = (1 : Nat) := by
  cases k <;> first | decide | exact absurd rfl h

/-- Witness for C4 amended, at the translate-Y kind. -/
theorem classification_exactly_one_witness :
    cond (RotateOp .kTranslateY) 1 0 + cond (TranslateOp .kTranslateY) 1 0
      + cond (ScaleOp .kTranslateY) 1 0
      + (if MatrixOperationType.kTranslateY
           = .kInvalidMatrixOperation then 1 else 0) = (1 : Nat) :=
  classification_exactly_one .kTranslateY (by decide)

/-- C2: on a motivator-driven operation, BlendToOp dispatches solely on the
    descriptor shape: empty leaves the operation (and its motivator state)
    unchanged; initial-value issues SetTarget with the single waypoint
    (value, velocity 0, time blend_x cast to MotiveTime); target forwards the
    waypoints to SetTarget; spline forwards curve and playback to SetSpline. -/
theorem blendtoop_motivator_dispatch (op : MatrixOperation) (m : Motivator1f)
    (di : Option MotivatorInit) (id : MatrixOpId) (ty : MatrixOperationType)
    (p : SplinePlayback) (v : ℚ) (t : MotiveTarget1f) (s : CompactSpline)
    (hm : op.value = .motivatorValue m) :
    op.BlendToOp ⟨di, id, ty, .kUnionEmpty⟩ p = some op
    ∧ op.BlendToOp ⟨di, id, ty, .kUnionInitialValue v⟩ p
        = some (op.withValue (.motivatorValue
            (m.SetTarget (Target1f v 0 (castToMotiveTime p.blend_x)))))
    ∧ op.BlendToOp ⟨di, id, ty, .kUnionTarget t⟩ p
        = some (op.withValue (.motivatorValue (m.SetTarget t)))
    ∧ op.BlendToOp ⟨di, id, ty, .kUnionSpline s⟩ p
        = some (op.withValue (.motivatorValue (m.SetSpline s p))) := by
  refine ⟨?_, ?_, ?_, ?_⟩ <;> simp [MatrixOperation.BlendToOp, hm]

/-- Witness for C2: the empty-shape conjunct at a concrete motivator-driven
    operation. -/
theorem blendtoop_motivator_dispatch_witness :
    (MatrixOperation.mk 2 .kRotateAboutY
        (.motivatorValue (Motivator1f.construct ⟨0⟩ ⟨0⟩))).BlendToOp
      ⟨some ⟨0⟩, 2, .kRotateAboutY, .kUnionEmpty⟩ SplinePlayback.mkDefault
      = some (MatrixOperation.mk 2 .kRotateAboutY
          (.motivatorValue (Motivator1f.construct ⟨0⟩ ⟨0⟩))) :=
  (blendtoop_motivator_dispatch
      (MatrixOperation.mk 2 .kRotateAboutY
        (.motivatorValue (Motivator1f.construct ⟨0⟩ ⟨0⟩)))
      (Motivator1f.construct ⟨0⟩ ⟨0⟩) (some ⟨0⟩) 2 .kRotateAboutY
      SplinePlayback.mkDefault 0 [] ⟨0⟩ rfl).1

/-- C6: BlendToDefault leaves a constant-driven operation unchanged; on a
    motivator-driven operation it issues SetTarget toward the default value
    of the kind (1 for scale kinds, 0 otherwise), instantly when blend_time
    is 0 and via a single easing waypoint of duration blend_time otherwise. -/
theorem blendtodefault_behavior (op : MatrixOperation) (bt : MotiveTime) :
    (∀ v, op.value = .constValue v → op.BlendToDefault bt = some op)
    ∧ (∀ m, op.value = .motivatorValue m →
        op.BlendToDefault bt = some (op.withValue (.motivatorValue (m.SetTarget
          (if bt = 0 then Current1f (OperationDefaultValue op.Type_)
           else Target1f (OperationDefaultValue op.Type_) 0 bt)))))
    ∧ (ScaleOp op.Type_ = true → OperationDefaultValue op.Type_ = 1)
    ∧ (ScaleOp op.Type_ = false → OperationDefaultValue op.Type_ = 0) := by
  refine ⟨?_, ?_, ?_, ?_⟩
  · intro v hv; simp [MatrixOperation.BlendToDefault, hv]
  · intro m hm; simp [MatrixOperation.BlendToDefault, hm]
  · intro h; simp [OperationDefaultValue, h]
  · intro h; simp [OperationDefaultValue, h]

/-- Witness for C6: a constant-driven translate operation is unchanged by
    BlendToDefault. -/
theorem blendtodefault_behavior_witness :
    (MatrixOperation.mk 1 .kTranslateX (.constValue 5)).BlendToDefault 3
      = some (MatrixOperation.mk 1 .kTranslateX (.constValue 5)) :=
  (blendtodefault_behavior (MatrixOperation.mk 1 .kTranslateX (.constValue 5)) 3).1 5 rfl

/-- C7: SetValue1f faults exactly when the operation is not constant-driven
    or the kind is a rotate and the value is outside the canonical angle
    range; under the precondition it overwrites the stored constant. -/
theorem setvalue1f_fault_iff (op : MatrixOperation) (v : ℚ) :
    (op.SetValue1f v = none
      ↔ ¬ (op.animation_type = .kConstValueAnimation
            ∧ (RotateOp op.Type_ = true → Angle.IsAngleInRange v = true)))
    ∧ (op.animation_type = .kConstValueAnimation
        → (RotateOp op.Type_ = true → Angle.IsAngleInRange v = true)
        → op.SetValue1f v = some (op.withValue (.constValue v))) := by
  have hbool : (RotateOp op.Type_ = false ∨ Angle.IsAngleInRange v = true)
      ↔ (RotateOp op.Type_ = true → Angle.IsAngleInRange v = true) := by
    cases hR : RotateOp op.Type_ <;> simp
  constructor
  · rw [MatrixOperation.SetValue1f]
    split
    · next hc =>
      exact iff_of_false (by simp) (not_not.mpr ⟨hc.1, hbool.mp hc.2⟩)
    · next hc =>
      exact iff_of_true rfl (fun hP => hc ⟨hP.1, hbool.mpr hP.2⟩)
  · intro h1 h2
    rw [MatrixOperation.SetValue1f, if_pos ⟨h1, hbool.mpr h2⟩]

/-- Witness for C7: setting a constant-driven translate operation succeeds
    and overwrites the constant. -/
theorem setvalue1f_fault_iff_witness :
    (MatrixOperation.mk 1 .kTranslateX (.constValue 5)).SetValue1f 7
      = some ((MatrixOperation.mk 1 .kTranslateX (.constValue 5)).withValue
          (.constValue 7)) :=
  (setvalue1f_fault_iff (MatrixOperation.mk 1 .kTranslateX (.constValue 5)) 7).2
    rfl (by decide)

/-- C8: on a constant-driven operation, BlendToOp faults exactly when the
    descriptor shape is not initial-value (empty, target and spline shapes
    are all rejected). -/
theorem blendtoop_const_requires_initial_value (op : MatrixOperation) (c : ℚ)
    (d : MatrixOperationInit) (p : SplinePlayback) (h : op.value = .constValue c) :
    op.BlendToOp d p = none ↔ ∀ v, d.unionValue ≠ .kUnionInitialValue v := by
  cases hu : d.unionValue with
  | kUnionInitialValue v =>
    simp only [MatrixOperation.BlendToOp, h, hu]
    exact iff_of_false (by simp) (fun hall => hall v rfl)
  | kUnionEmpty => simp [MatrixOperation.BlendToOp, h, hu]
  | kUnionTarget t => simp [MatrixOperation.BlendToOp, h, hu]
  | kUnionSpline s => simp [MatrixOperation.BlendToOp, h, hu]

/-- Witness for C8: a constant-driven operation given an empty descriptor
    faults. -/
theorem blendtoop_const_requires_initial_value_witness :
    (MatrixOperation.mk 1 .kTranslateX (.constValue 5)).BlendToOp
      (MatrixOperationInit.ofMotivator 1 .kTranslateX ⟨0⟩)
      SplinePlayback.mkDefault = none :=
  (blendtoop_const_requires_initial_value
      (MatrixOperation.mk 1 .kTranslateX (.constValue 5)) 5
      (MatrixOperationInit.ofMotivator 1 .kTranslateX ⟨0⟩)
      SplinePlayback.mkDefault rfl).mpr
    (by intro v; simp [MatrixOperationInit.ofMotivator])

/-- C10: SetTarget1f on a constant-driven operation faults (the motivator
    accessor assertion), while BlendToDefault and SetPlaybackRate silently
    return unchanged on constant-driven operations; SetTarget1f always
    succeeds on motivator-driven operations. -/
theorem settarget1f_faults_on_const (op : MatrixOperation) (t : MotiveTarget1f)
    (bt : MotiveTime) (r : ℚ)
    (h : op.animation_type = .kConstValueAnimation) :
    op.SetTarget1f t = none
    ∧ op.BlendToDefault bt = some op
    ∧ op.SetPlaybackRate r = some op
    ∧ ∀ op2 : MatrixOperation, op2.animation_type = .kMotivatorAnimation
        → (op2.SetTarget1f t).isSome = true := by
  obtain ⟨c, hc⟩ : ∃ c, op.value = .constValue c := by
    cases hov : op.value with
    | constValue c => exact ⟨c, rfl⟩
    | motivatorValue m => simp [MatrixOperation.animation_type, hov] at h
    | invalidValue => simp [MatrixOperation.animation_type, hov] at h
  refine ⟨?_, ?_, ?_, ?_⟩
  · simp [MatrixOperation.SetTarget1f, hc]
  · simp [MatrixOperation.BlendToDefault, hc]
  · simp [MatrixOperation.SetPlaybackRate, hc]
  · intro op2 h2
    obtain ⟨m, hm⟩ : ∃ m, op2.value = .motivatorValue m := by
      cases hov : op2.value with
      | motivatorValue m => exact ⟨m, rfl⟩
      | constValue c2 => simp [MatrixOperation.animation_type, hov] at h2
      | invalidValue => simp [MatrixOperation.animation_type, hov] at h2
    simp [MatrixOperation.SetTarget1f, hm]

/-- Witness for C10: SetTarget1f faults on a concrete constant-driven
    operation. -/
theorem settarget1f_faults_on_const_witness :
    (MatrixOperation.mk 1 .kTranslateX (.constValue 5)).SetTarget1f
      (Target1f 2 0 10) = none :=
  (settarget1f_faults_on_const (MatrixOperation.mk 1 .kTranslateX (.constValue 5))
      (Target1f 2 0 10) 3 2 rfl).1

end motive
